import Mathlib

/-!
# Bounded circular buffer with producers and consumers (`main.cpp`)

A shallow embedding of the classes `Buffer`, `Productor`, `Consumidor`,
`Principal` and of `main`, followed by the properties proved about them.

* The fields of `Buffer` are C++ `int`s and are embedded as `Int`.  The mutex
  makes every member function of `Buffer` one atomic transition, so a member
  function is a function on the state; a call of `extraer` whose wait
  predicate `count > 0` is false does not return, which is the result `none`.
* `std::vector<std::string>` is embedded as `List String`.
* The threads are embedded as an interleaving step function: one step is one
  call of a member function of the shared `Buffer` by one thread.
-/

namespace Proyecto1

/-! ## Machine integers -/

/-- Largest value of a 32-bit `int`. -/
def INT_MAX : Int := 2147483647

/-- Smallest value of a 32-bit `int`. -/
def INT_MIN : Int := -2147483648

/-- Result of a 32-bit `int` operation whose mathematical value is `x`
(two's complement wrap-around). -/
def wrap32 (x : Int) : Int := (x + 2147483648) % 4294967296 - 2147483648

/-- The C++ operator `%` on `int`: remainder of the division truncated
toward zero. -/
def cmod (a b : Int) : Int := Int.tmod a b

/-- Conversion of an `int` to the 64-bit unsigned `std::size_t`, as done for
the argument of `resize`. -/
def toSizeT (n : Int) : Nat := (n % 18446744073709551616).toNat

/-- Value of `std::vector<std::string>::max_size()`: `PTRDIFF_MAX` divided by
`sizeof(std::string)`, that is `(2^63 - 1) / 32`. -/
def vectorMaxSize : Nat := 288230376151711743

/-- The call `v.resize(n)` on an empty `std::vector<std::string>`: it throws
`std::length_error` (no vector, `none`) when `n` exceeds `max_size()`, and
otherwise leaves `n` default-constructed (empty) strings.  Exhaustion of the
memory (`std::bad_alloc`) is not represented. -/
def resize (n : Nat) : Option (List String) :=
  if n > vectorMaxSize then none else some (List.replicate n "")

/-! ## class Buffer -/

/-- Data members of `class Buffer` (the mutex and the condition variables are
represented by the atomicity of the operations). -/
structure Buffer where
  capacidad : Int
  buffer : List String
  frente : Int
  fondo : Int
  count : Int
deriving DecidableEq

/-- The constructor `Buffer(int cap)` (named `ctor` here, since inside the
namespace of the structure the name `Buffer` would shadow the type): the
members are initialised to `cap, 0, 0, 0` and the vector is resized to
`capacidad` slots.  `none` is the exception thrown by `resize`. -/
def Buffer.ctor (cap : Int) : Option Buffer :=
  match resize (toSizeT cap) with
  | none => none
  | some v => some { capacidad := cap, buffer := v, frente := 0, fondo := 0, count := 0 }

/-- The member `void insertar(const std::string& dato)`.  The first component
is the value handed back to the caller (the function is `void`), the second
the state afterwards.  The embedding is that of the source on the states
satisfying `Buffer.Inv` and on the early return: there `fondo` lies inside the
vector, `capacidad` is not zero and neither `fondo + 1` nor `++count` leaves
the range of `int`.  Outside them the source is undefined (a write outside
the vector, `% 0`, signed overflow) and the value computed here (no write,
unbounded `Int`) says nothing about it. -/
def Buffer.insertar (b : Buffer) (dato : String) : Unit × Buffer :=
  if b.count = b.capacidad then
    ((), b)
  else
    ((), { b with
            buffer := b.buffer.set b.fondo.toNat dato
            fondo := cmod (b.fondo + 1) b.capacidad
            count := b.count + 1 })

/-- The member `std::string extraer()`.  `none`: the wait predicate
`count > 0` is false, the caller stays blocked and nothing changes.
Otherwise the returned string and the state afterwards.  The embedding is
that of the source on the states satisfying `Buffer.Inv`, where `frente` lies
inside the vector and no `int` operation overflows; a read outside the vector
(undefined in C++) reads the empty string here and says nothing about the
source. -/
def Buffer.extraer (b : Buffer) : Option (String × Buffer) :=
  if b.count > 0 then
    some (b.buffer.getD b.frente.toNat "",
          { b with
            frente := cmod (b.frente + 1) b.capacidad
            count := b.count - 1 })
  else
    none

/-- The member `bool esta_lleno()`; it does not change the state. -/
def Buffer.esta_lleno (b : Buffer) : Bool :=
  decide (b.count = b.capacidad)

/-! ## Sequences of calls made by one caller -/

/-- One call of a public member function of `Buffer`. -/
inductive Op where
  | insertar (dato : String)
  | extraer
  | esta_lleno
deriving DecidableEq

/-- A buffer together with the record of what has happened to it: the items
that `insertar` stored (the calls made while `count < capacidad`) and the
values that `extraer` returned, both in call order. -/
structure Traza where
  buf : Buffer
  almacenados : List String
  extraidos : List String
deriving DecidableEq

/-- The record of a freshly constructed buffer. -/
def Traza.inicial (b : Buffer) : Traza :=
  { buf := b, almacenados := [], extraidos := [] }

/-- Effect of one call.  `none`: the call is `extraer` on a buffer with
`count > 0` false, which does not return. -/
def Traza.paso (t : Traza) : Op → Option Traza
  | Op.insertar dato =>
      some { buf := (t.buf.insertar dato).2
             almacenados :=
               if t.buf.count < t.buf.capacidad then t.almacenados ++ [dato]
               else t.almacenados
             extraidos := t.extraidos }
  | Op.extraer =>
      match t.buf.extraer with
      | none => none
      | some (dato, b) =>
          some { buf := b
                 almacenados := t.almacenados
                 extraidos := t.extraidos ++ [dato] }
  | Op.esta_lleno => some t

/-- Effect of a finite sequence of calls applied one after another. -/
def Traza.correr (t : Traza) : List Op → Option Traza
  | [] => some t
  | op :: ops =>
      match t.paso op with
      | none => none
      | some t1 => t1.correr ops

/-! ## Invariant and abstraction of the buffer -/

/-- The buffer invariant: a positive capacity that is an `int`, exactly
`capacidad` slots, both indices inside `[0, capacidad)`, `count` inside
`[0, capacidad]`, and `fondo` lying `count` slots after `frente` on the
circle. -/
def Buffer.Inv (b : Buffer) : Prop :=
  0 < b.capacidad ∧ b.capacidad ≤ INT_MAX ∧
  (b.buffer.length : Int) = b.capacidad ∧
  0 ≤ b.frente ∧ b.frente < b.capacidad ∧
  0 ≤ b.fondo ∧ b.fondo < b.capacidad ∧
  0 ≤ b.count ∧ b.count ≤ b.capacidad ∧
  (b.count = b.fondo - b.frente ∨ b.count = b.fondo - b.frente + b.capacidad)

instance (b : Buffer) : Decidable b.Inv := by
  unfold Buffer.Inv
  infer_instance

/-- The items held in the buffer from `frente` onward: the `count` slots
`frente, frente + 1, ...` taken circularly. -/
def Buffer.contenido (b : Buffer) : List String :=
  (List.range b.count.toNat).map
    (fun (i : Nat) => b.buffer.getD ((b.frente + Int.ofNat i) % b.capacidad).toNat "")

/-- The properties carried along a sequence of calls: the buffer invariant and
the agreement of the record with the contents of the buffer. -/
def Traza.Bien (t : Traza) : Prop :=
  t.buf.Inv ∧ t.extraidos ++ t.buf.contenido = t.almacenados

/-! ## Producers, consumers and the coordinator -/

/-- Where a producer stands inside the retry loop `while (true)` of
`Productor::producir`: about to call `buffer.esta_lleno()`, or, having seen
`false`, about to call `buffer.insertar(dato)`. -/
inductive PC where
  | verificar
  | insertar
deriving DecidableEq

/-- A thread running `Productor::producir`: the members `id` and
`num_producciones`, the loop variable `i` of the `for` loop, and the position
inside the retry loop. -/
structure Productor where
  id : Int
  num_producciones : Int
  i : Int
  pc : PC
deriving DecidableEq

/-- The item of the current iteration,
`std::to_string(id) + "_" + std::to_string(i)`. -/
def Productor.dato (p : Productor) : String :=
  toString p.id ++ "_" ++ toString p.i

/-- A thread running `Consumidor::consumir`: the members `id` and
`num_consumos` and the loop variable `i`. -/
structure Consumidor where
  id : Int
  num_consumos : Int
  i : Int
deriving DecidableEq

/-- The shared buffer, the threads, and the record of the run: the items the
producers logged as `Insertó exitosamente` (in log order), the items that
`insertar` really stored, and the items the consumers extracted. -/
structure Sistema where
  buffer : Buffer
  productores : List Productor
  consumidores : List Consumidor
  registrados : List String
  almacenados : List String
  extraidos : List String
deriving DecidableEq

/-- Which thread makes the next call on the buffer. -/
inductive Evento where
  | productor (k : Nat)
  | consumidor (k : Nat)
deriving DecidableEq

/-- One step of producer number `k` (its next call on the buffer and the code
up to the call after it).  `none`: no such thread, or it has finished. -/
def Sistema.pasoProductor (s : Sistema) (k : Nat) : Option Sistema :=
  match s.productores[k]? with
  | none => none
  | some p =>
      if p.i ≤ p.num_producciones then
        match p.pc with
        | PC.verificar =>
            if !s.buffer.esta_lleno then
              some { s with productores := s.productores.set k { p with pc := PC.insertar } }
            else
              some s
        | PC.insertar =>
            some { s with
                    buffer := (s.buffer.insertar p.dato).2
                    productores :=
                      s.productores.set k { p with i := p.i + 1, pc := PC.verificar }
                    registrados := s.registrados ++ [p.dato]
                    almacenados :=
                      if s.buffer.count = s.buffer.capacidad then s.almacenados
                      else s.almacenados ++ [p.dato] }
      else
        none

/-- One step of consumer number `k`: its next call of `extraer`.  `none`: no
such thread, it has finished, or the call is blocked. -/
def Sistema.pasoConsumidor (s : Sistema) (k : Nat) : Option Sistema :=
  match s.consumidores[k]? with
  | none => none
  | some c =>
      if c.i < c.num_consumos then
        match s.buffer.extraer with
        | none => none
        | some (dato, b) =>
            some { s with
                    buffer := b
                    consumidores := s.consumidores.set k { c with i := c.i + 1 }
                    extraidos := s.extraidos ++ [dato] }
      else
        none

/-- One step of the interleaving. -/
def Sistema.paso (s : Sistema) : Evento → Option Sistema
  | Evento.productor k => s.pasoProductor k
  | Evento.consumidor k => s.pasoConsumidor k

/-- A schedule: the steps of the threads one after another. -/
def Sistema.correr (s : Sistema) : List Evento → Option Sistema
  | [] => some s
  | e :: es =>
      match s.paso e with
      | none => none
      | some s1 => s1.correr es

/-- Data members of `class Principal` that matter here. -/
structure Principal where
  NP : Int
  NC : Int
  BC : Int
  NPP : Int
  NCC : Int
  buffer : Buffer
deriving DecidableEq

/-- The constructor of `Principal`; it constructs `buffer(BC)`, whose
exception (`none`) it lets through. -/
def Principal.ctor (np nc bc npp ncc : Int) : Option Principal :=
  match Buffer.ctor bc with
  | none => none
  | some b => some { NP := np, NC := nc, BC := bc, NPP := npp, NCC := ncc, buffer := b }

/-- The member `Principal::inicializar`: producers `1 .. NP` with `NPP`
productions each and consumers `1 .. NC` with `NCC` extractions each are
started on the shared buffer. -/
def Principal.inicializar (p : Principal) : Sistema :=
  { buffer := p.buffer
    productores := (List.range p.NP.toNat).map
      (fun (k : Nat) =>
        { id := Int.ofNat k + 1, num_producciones := p.NPP, i := 1, pc := PC.verificar })
    consumidores := (List.range p.NC.toNat).map
      (fun (k : Nat) => { id := Int.ofNat k + 1, num_consumos := p.NCC, i := 0 })
    registrados := []
    almacenados := []
    extraidos := [] }

/-- What `main` does. -/
inductive Salida where
  | exit1
  | excepcion
  | unidades (s : Sistema)
deriving DecidableEq

/-- The function `main`, given the values `std::stoi` parsed from
`argv[1], ...`: status 1 when there are not five of them or when the supply
check `NP * NPP < NC * NCC`, computed on `int`, fails; otherwise `Principal`
is constructed (`excepcion` when its constructor throws) and the units are
started. -/
def main (args : List Int) : Salida :=
  match args with
  | [np, nc, bc, npp, ncc] =>
      if wrap32 (np * npp) < wrap32 (nc * ncc) then
        Salida.exit1
      else
        match Principal.ctor np nc bc npp ncc with
        | none => Salida.excepcion
        | some p => Salida.unidades p.inicializar
  | _ => Salida.exit1

/-! ## Arithmetic of the indices and the constructor -/

theorem cmod_succ {a c : Int} (h0 : 0 ≤ a) (h1 : a < c) :
    cmod (a + 1) c = if a + 1 = c then 0 else a + 1 := by
  unfold cmod
  rw [Int.tmod_eq_emod (by omega) (by omega)]
  split_ifs with h
  · rw [h]; exact Int.emod_self
  · exact Int.emod_eq_of_lt (by omega) (by omega)

theorem emod_wrap {a c : Int} (h0 : 0 ≤ a) (h1 : a < c + c) :
    a % c = if a < c then a else a - c := by
  split_ifs with h
  · exact Int.emod_eq_of_lt h0 h
  · have : a = (a - c) + c := by ring
    rw [this, Int.add_emod_self]
    rw [Int.emod_eq_of_lt (by omega) (by omega)]
    ring

theorem ctor_pos {cap : Int} (h0 : 0 < cap) (h1 : cap ≤ INT_MAX) :
    Buffer.ctor cap =
      some { capacidad := cap, buffer := List.replicate cap.toNat "", frente := 0, fondo := 0, count := 0 } := by
  unfold INT_MAX at h1
  have e : toSizeT cap = cap.toNat := by
    unfold toSizeT
    rw [Int.emod_eq_of_lt (by omega) (by omega)]
  have l : ¬ cap.toNat > vectorMaxSize := by
    unfold vectorMaxSize
    omega
  simp [Buffer.ctor, resize, e, l]

theorem inv_ctor {cap : Int} {b : Buffer} (h0 : 0 < cap) (h1 : cap ≤ INT_MAX)
    (hb : Buffer.ctor cap = some b) : b.Inv := by
  rw [ctor_pos h0 h1] at hb
  cases hb
  simp [Buffer.Inv, h0, h1]
  omega

theorem inv_insertar {b : Buffer} (x : String) (h : b.Inv) : (b.insertar x).2.Inv := by
  obtain ⟨h1, h2, h3, h4, h5, h6, h7, h8, h9, h10⟩ := h
  unfold Buffer.insertar
  split_ifs with hc
  · exact ⟨h1, h2, h3, h4, h5, h6, h7, h8, h9, h10⟩
  · simp only [Buffer.Inv, List.length_set, cmod_succ h6 h7]
    split_ifs with hf
    · refine ⟨h1, h2, h3, h4, h5, le_refl _, h1, ?_, ?_, ?_⟩ <;> omega
    · refine ⟨h1, h2, h3, h4, h5, ?_, ?_, ?_, ?_, ?_⟩ <;> omega

theorem extraer_eq {b : Buffer} (h : 0 < b.count) :
    b.extraer = some (b.buffer.getD b.frente.toNat "",
      { b with frente := cmod (b.frente + 1) b.capacidad, count := b.count - 1 }) := by
  unfold Buffer.extraer
  rw [if_pos h]

theorem extraer_none {b : Buffer} (h : ¬ 0 < b.count) : b.extraer = none := by
  unfold Buffer.extraer
  rw [if_neg h]

theorem inv_extraer {b b1 : Buffer} {d : String} (h : b.Inv) (he : b.extraer = some (d, b1)) :
    b1.Inv := by
  obtain ⟨h1, h2, h3, h4, h5, h6, h7, h8, h9, h10⟩ := h
  by_cases hc : 0 < b.count
  · rw [extraer_eq hc] at he
    simp only [Option.some.injEq, Prod.mk.injEq] at he
    obtain ⟨-, rfl⟩ := he
    simp only [Buffer.Inv, cmod_succ h4 h5]
    split_ifs with hf
    · refine ⟨h1, h2, h3, le_refl _, h1, h6, h7, ?_, ?_, ?_⟩ <;> omega
    · refine ⟨h1, h2, h3, ?_, ?_, h6, h7, ?_, ?_, ?_⟩ <;> omega
  · rw [extraer_none hc] at he
    cases he

/-- Under the invariant no `int` operation of `insertar` or `extraer`
leaves the range of `int`, which is why the embedding computes on `Int`
without wrap-around there. -/
theorem int_range_of_inv {b : Buffer} (h : b.Inv) :
    b.fondo + 1 ≤ INT_MAX ∧ b.frente + 1 ≤ INT_MAX ∧
    (b.count ≠ b.capacidad → b.count + 1 ≤ INT_MAX) ∧
    (0 < b.count → INT_MIN ≤ b.count - 1) := by
  obtain ⟨h1, h2, h3, h4, h5, h6, h7, h8, h9, h10⟩ := h
  unfold INT_MAX at *
  unfold INT_MIN
  refine ⟨?_, ?_, ?_, ?_⟩ <;> intros <;> omega

theorem wrap32_of_range {x : Int} (h0 : INT_MIN ≤ x) (h1 : x ≤ INT_MAX) : wrap32 x = x := by
  unfold INT_MIN at h0
  unfold INT_MAX at h1
  unfold wrap32
  omega

/-- When neither product leaves the range of `int`, the supply check of
`main` is the comparison of the mathematical products. -/
theorem supply_check_exact (np nc bc npp ncc : Int)
    (hp0 : INT_MIN ≤ np * npp) (hp1 : np * npp ≤ INT_MAX)
    (hc0 : INT_MIN ≤ nc * ncc) (hc1 : nc * ncc ≤ INT_MAX) :
    main [np, nc, bc, npp, ncc] = Salida.exit1 ↔ np * npp < nc * ncc := by
  simp only [main, wrap32_of_range hp0 hp1, wrap32_of_range hc0 hc1, Principal.ctor]
  split_ifs with h
  · simp [h]
  · cases Buffer.ctor bc <;> simp [h]

/-! ## The contents of the buffer under the two operations -/

theorem getD_set_ne (l : List String) {i j : Nat} (x : String) (h : i ≠ j) :
    (l.set i x).getD j "" = l.getD j "" := by
  simp [List.getD_eq_getElem?_getD, List.getElem?_set_ne h]

theorem getD_set_self (l : List String) {i : Nat} (x : String) (h : i < l.length) :
    (l.set i x).getD i "" = x := by
  simp [List.getD_eq_getElem?_getD, List.getElem?_set_self h]

theorem contenido_insertar {b : Buffer} (x : String) (h : b.Inv) (hc : b.count < b.capacidad) :
    (b.insertar x).2.contenido = b.contenido ++ [x] := by
  obtain ⟨h1, h2, h3, h4, h5, h6, h7, h8, h9, h10⟩ := h
  have hne : ¬ b.count = b.capacidad := by omega
  unfold Buffer.insertar
  rw [if_neg hne]
  simp only [Buffer.contenido, Int.ofNat_eq_coe]
  have e : (b.count + 1).toNat = b.count.toNat + 1 := by omega
  rw [e, List.range_succ, List.map_append]
  congr 1
  · apply List.map_congr_left
    intro i hi
    rw [List.mem_range] at hi
    apply getD_set_ne
    rw [emod_wrap (by omega) (by omega)]
    split_ifs <;> omega
  · simp only [List.map_cons, List.map_nil, List.cons.injEq, and_true]
    have e2 : ((b.frente + (b.count.toNat : Int)) % b.capacidad).toNat = b.fondo.toNat := by
      rw [emod_wrap (by omega) (by omega)]
      split_ifs <;> omega
    rw [e2]
    apply getD_set_self
    omega

theorem contenido_extraer {b b1 : Buffer} {d : String} (h : b.Inv)
    (he : b.extraer = some (d, b1)) : b.contenido = d :: b1.contenido := by
  obtain ⟨h1, h2, h3, h4, h5, h6, h7, h8, h9, h10⟩ := h
  by_cases hc : 0 < b.count
  · rw [extraer_eq hc] at he
    simp only [Option.some.injEq, Prod.mk.injEq] at he
    obtain ⟨rfl, rfl⟩ := he
    simp only [Buffer.contenido, Int.ofNat_eq_coe]
    have e : b.count.toNat = (b.count - 1).toNat + 1 := by omega
    rw [e, List.range_succ_eq_map, List.map_cons, List.map_map]
    congr 1
    · congr 1
      simp only [Nat.cast_zero, add_zero]
      rw [Int.emod_eq_of_lt h4 h5]
    · apply List.map_congr_left
      intro i hi
      rw [List.mem_range] at hi
      simp only [Function.comp_apply, Nat.succ_eq_add_one, Nat.cast_add, Nat.cast_one]
      congr 2
      rw [cmod_succ h4 h5]
      split_ifs with hg
      · rw [emod_wrap (a := b.frente + ((i : Int) + 1)) (by omega) (by omega),
          emod_wrap (a := 0 + (i : Int)) (by omega) (by omega)]
        split_ifs <;> omega
      · rw [emod_wrap (a := b.frente + ((i : Int) + 1)) (by omega) (by omega),
          emod_wrap (a := b.frente + 1 + (i : Int)) (by omega) (by omega)]
        split_ifs <;> omega
  · rw [extraer_none hc] at he
    cases he

/-! ## Sequences of calls -/

theorem capacidad_insertar (b : Buffer) (x : String) :
    (b.insertar x).2.capacidad = b.capacidad := by
  unfold Buffer.insertar
  split_ifs <;> rfl

theorem capacidad_extraer {b b1 : Buffer} {d : String} (he : b.extraer = some (d, b1)) :
    b1.capacidad = b.capacidad := by
  unfold Buffer.extraer at he
  split_ifs at he
  simp only [Option.some.injEq, Prod.mk.injEq] at he
  obtain ⟨-, rfl⟩ := he
  rfl

theorem bien_paso {t t1 : Traza} {op : Op} (h : t.Bien) (hp : t.paso op = some t1) :
    t1.Bien ∧ t1.buf.capacidad = t.buf.capacidad := by
  obtain ⟨hi, hf⟩ := h
  cases op with
  | insertar x =>
    simp only [Traza.paso, Option.some.injEq] at hp
    subst hp
    refine ⟨⟨inv_insertar x hi, ?_⟩, capacidad_insertar _ _⟩
    simp only
    split_ifs with hc
    · rw [contenido_insertar x hi hc, ← List.append_assoc, hf]
    · have hfull : t.buf.count = t.buf.capacidad := by
        have := hi.2.2.2.2.2.2.2.2.1
        omega
      simp only [Buffer.insertar, if_pos hfull]
      exact hf
  | extraer =>
    simp only [Traza.paso] at hp
    cases he : t.buf.extraer with
    | none => rw [he] at hp; cases hp
    | some r =>
      obtain ⟨d, b1⟩ := r
      rw [he] at hp
      simp only [Option.some.injEq] at hp
      subst hp
      refine ⟨⟨inv_extraer hi he, ?_⟩, capacidad_extraer he⟩
      simp only
      rw [List.append_assoc, List.singleton_append, ← contenido_extraer hi he]
      exact hf
  | esta_lleno =>
    simp only [Traza.paso, Option.some.injEq] at hp
    subst hp
    exact ⟨⟨hi, hf⟩, rfl⟩

theorem bien_correr {ops : List Op} {t t1 : Traza} (h : t.Bien)
    (hr : t.correr ops = some t1) : t1.Bien ∧ t1.buf.capacidad = t.buf.capacidad := by
  induction ops generalizing t with
  | nil =>
    simp only [Traza.correr, Option.some.injEq] at hr
    subst hr
    exact ⟨h, rfl⟩
  | cons op ops ih =>
    simp only [Traza.correr] at hr
    cases hp : t.paso op with
    | none => rw [hp] at hr; cases hr
    | some t2 =>
      rw [hp] at hr
      obtain ⟨h2, hc2⟩ := bien_paso h hp
      obtain ⟨h3, hc3⟩ := ih h2 hr
      exact ⟨h3, hc3.trans hc2⟩

theorem correr_append (t : Traza) (l1 l2 : List Op) :
    t.correr (l1 ++ l2) = (t.correr l1).bind (fun t1 => t1.correr l2) := by
  induction l1 generalizing t with
  | nil => rfl
  | cons op l1 ih =>
    simp only [List.cons_append, Traza.correr]
    cases t.paso op with
    | none => rfl
    | some t2 => exact ih t2

theorem bien_inicial {cap : Int} {b0 : Buffer} (h0 : 0 < cap) (h1 : cap ≤ INT_MAX)
    (hb : Buffer.ctor cap = some b0) : (Traza.inicial b0).Bien ∧ b0.capacidad = cap := by
  have hi := inv_ctor h0 h1 hb
  rw [ctor_pos h0 h1] at hb
  cases hb
  exact ⟨⟨hi, rfl⟩, rfl⟩

/-- Every state met along a sequence of calls that runs to its end, on a
freshly constructed buffer, is reached by a prefix of the sequence and has
the carried properties. -/
theorem bien_prefijo {cap : Int} {b0 : Buffer} {ops pre : List Op} {t : Traza}
    (h0 : 0 < cap) (h1 : cap ≤ INT_MAX) (hb : Buffer.ctor cap = some b0)
    (hr : (Traza.inicial b0).correr ops = some t) (hpre : pre <+: ops) :
    ∃ t1, (Traza.inicial b0).correr pre = some t1 ∧ t1.Bien ∧ t1.buf.capacidad = cap := by
  obtain ⟨suf, rfl⟩ := hpre
  rw [correr_append] at hr
  cases hp : (Traza.inicial b0).correr pre with
  | none => rw [hp] at hr; cases hr
  | some t1 =>
    obtain ⟨hi, hc⟩ := bien_inicial h0 h1 hb
    obtain ⟨h2, hc2⟩ := bien_correr hi hp
    exact ⟨t1, rfl, h2, hc2.trans hc⟩

/-! ## Properties of the buffer, the producers and the coordinator -/

/-- C1 (FIFO).  For every capacity `cap > 0` and every finite sequence of
calls applied one after another to the freshly constructed `Buffer(cap)`, in
which every `extraer` finds `count > 0`: the values returned by `extraer`, in
call order, are a prefix of the items that `insertar` stored, in insertion
order, and the items held from `frente` onward are the rest of that list. -/
theorem fifo_order (cap : Int) (b0 : Buffer) (ops : List Op) (t : Traza)
    (hcap : 0 < cap) (hmax : cap ≤ INT_MAX) (hb : Buffer.ctor cap = some b0)
    (hrun : (Traza.inicial b0).correr ops = some t) :
    t.extraidos <+: t.almacenados ∧ t.almacenados = t.extraidos ++ t.buf.contenido := by
  obtain ⟨hi, -⟩ := bien_inicial hcap hmax hb
  obtain ⟨⟨-, hf⟩, -⟩ := bien_correr hi hrun
  exact ⟨⟨t.buf.contenido, hf⟩, hf.symm⟩

theorem fifo_order_witness :
    Buffer.ctor 2 = some ⟨2, ["", ""], 0, 0, 0⟩ ∧
    (Traza.inicial ⟨2, ["", ""], 0, 0, 0⟩).correr
        [Op.insertar "a", Op.insertar "b", Op.insertar "c", Op.extraer, Op.insertar "d"] =
      some ⟨⟨2, ["d", "b"], 1, 1, 2⟩, ["a", "b", "d"], ["a"]⟩ ∧
    ["a"] <+: ["a", "b", "d"] ∧
    ["a", "b", "d"] = ["a"] ++ Buffer.contenido ⟨2, ["d", "b"], 1, 1, 2⟩ :=
  ⟨by decide, by decide,
    fifo_order 2 ⟨2, ["", ""], 0, 0, 0⟩
      [Op.insertar "a", Op.insertar "b", Op.insertar "c", Op.extraer, Op.insertar "d"]
      ⟨⟨2, ["d", "b"], 1, 1, 2⟩, ["a", "b", "d"], ["a"]⟩
      (by decide) (by decide) (by decide) (by decide)⟩

/-- C2 (capacity invariant).  For every `Buffer` constructed with capacity
`cap > 0` and every finite sequence of `insertar`, `extraer` (applied when
`count > 0`) and `esta_lleno` calls, every state reached on the way (the
state after each prefix of the sequence) has `0 <= count <= capacidad`. -/
theorem capacity_invariant (cap : Int) (b0 : Buffer) (ops pre : List Op) (t : Traza)
    (hcap : 0 < cap) (hmax : cap ≤ INT_MAX) (hb : Buffer.ctor cap = some b0)
    (hrun : (Traza.inicial b0).correr ops = some t) (hpre : pre <+: ops) :
    ∃ t1, (Traza.inicial b0).correr pre = some t1 ∧
      0 ≤ t1.buf.count ∧ t1.buf.count ≤ t1.buf.capacidad ∧ t1.buf.capacidad = cap := by
  obtain ⟨t1, h1, ⟨hi, -⟩, hc⟩ := bien_prefijo hcap hmax hb hrun hpre
  exact ⟨t1, h1, hi.2.2.2.2.2.2.2.1, hi.2.2.2.2.2.2.2.2.1, hc⟩

theorem capacity_invariant_witness :
    ∃ t1, (Traza.inicial ⟨1, [""], 0, 0, 0⟩).correr
        [Op.insertar "a", Op.esta_lleno, Op.insertar "b"] = some t1 ∧
      0 ≤ t1.buf.count ∧ t1.buf.count ≤ t1.buf.capacidad ∧ t1.buf.capacidad = 1 :=
  capacity_invariant 1 ⟨1, [""], 0, 0, 0⟩
    [Op.insertar "a", Op.esta_lleno, Op.insertar "b", Op.extraer]
    [Op.insertar "a", Op.esta_lleno, Op.insertar "b"]
    ⟨⟨1, ["a"], 0, 0, 0⟩, ["a"], ["a"]⟩
    (by decide) (by decide) (by decide) (by decide) (by decide)

/-- C3 (non-blocking insert on a full buffer).  For every `Buffer` state with
`count == capacidad` and every item `x`, `insertar(x)` returns and leaves the
whole state (all slots, `frente`, `fondo`, `count`, `capacidad`) as it
was. -/
theorem insertar_full_unchanged (b : Buffer) (x : String) (h : b.count = b.capacidad) :
    b.insertar x = ((), b) := by
  unfold Buffer.insertar
  rw [if_pos h]

theorem insertar_full_unchanged_witness :
    Buffer.insertar ⟨2, ["a", "b"], 1, 1, 2⟩ "c" = ((), ⟨2, ["a", "b"], 1, 1, 2⟩) :=
  insertar_full_unchanged ⟨2, ["a", "b"], 1, 1, 2⟩ "c" (by decide)

/-- C4, as stated, fails: `insertar` is `void`.  The call that stores `"x"`
in an empty buffer of capacity 1 and the call that is rejected by a full one
hand back the same value to the caller, so no boolean that is true exactly
when the item was stored is returned, not even on the states that satisfy the
buffer invariant. -/
theorem insertar_reports_nothing :
    (Buffer.insertar ⟨1, [""], 0, 0, 0⟩ "x").1 = (Buffer.insertar ⟨1, ["a"], 0, 0, 1⟩ "x").1 ∧
    (Buffer.insertar ⟨1, [""], 0, 0, 0⟩ "x").2 = ⟨1, ["x"], 0, 0, 1⟩ ∧
    (Buffer.insertar ⟨1, ["a"], 0, 0, 1⟩ "x").2 = ⟨1, ["a"], 0, 0, 1⟩ ∧
    ¬ ∃ informe : Unit → Bool, ∀ (b : Buffer) (x : String), b.Inv →
        (informe (b.insertar x).1 = true ↔ b.count < b.capacidad) := by
  refine ⟨rfl, by decide, by decide, ?_⟩
  rintro ⟨informe, h⟩
  have h1 := h ⟨1, [""], 0, 0, 0⟩ "x" (by decide)
  have h2 := h ⟨1, ["a"], 0, 0, 1⟩ "x" (by decide)
  have e1 : ((⟨1, [""], 0, 0, 0⟩ : Buffer).count < (⟨1, [""], 0, 0, 0⟩ : Buffer).capacidad) := by
    decide
  have e2 : ¬ ((⟨1, ["a"], 0, 0, 1⟩ : Buffer).count < (⟨1, ["a"], 0, 0, 1⟩ : Buffer).capacidad) := by
    decide
  exact e2 (h2.mp (h1.mpr e1))

/-- C4, amended.  `insertar` returns no value.  For every `Buffer` state and
item `x`, when `count == capacidad` the state is left as it was and `x` is not
stored.  For every `Buffer` state satisfying the buffer invariant, `x` is
stored exactly when `count < capacidad` at the time of the call, which is
what `esta_lleno()` answering `false` announces: `x` is then written to slot
`fondo`, which lies inside the vector, `fondo` becomes
`(fondo + 1) mod capacidad`, `count` grows by one without leaving the range
of `int`, the other members stay as they were, and `x` becomes the last item
of the queue. -/
theorem insertar_outcome (b : Buffer) (x : String) :
    (b.insertar x).1 = () ∧
    (b.count = b.capacidad → (b.insertar x).2 = b) ∧
    (b.Inv →
      (b.count ≠ b.capacidad ↔ b.count < b.capacidad) ∧
      (b.esta_lleno = false ↔ b.count < b.capacidad) ∧
      (b.count < b.capacidad →
        b.fondo.toNat < b.buffer.length ∧
        b.fondo + 1 ≤ INT_MAX ∧ b.count + 1 ≤ INT_MAX ∧
        (b.insertar x).2 =
          { capacidad := b.capacidad
            buffer := b.buffer.set b.fondo.toNat x
            frente := b.frente
            fondo := (b.fondo + 1) % b.capacidad
            count := b.count + 1 } ∧
        (b.insertar x).2.buffer[b.fondo.toNat]? = some x ∧
        (b.insertar x).2.contenido = b.contenido ++ [x])) := by
  refine ⟨rfl, ?_, ?_⟩
  · intro h
    simp only [Buffer.insertar, if_pos h]
  · intro hi
    have hr := int_range_of_inv hi
    obtain ⟨h1, h2, h3, h4, h5, h6, h7, h8, h9, h10⟩ := hi
    refine ⟨by omega, ?_, ?_⟩
    · simp only [Buffer.esta_lleno, decide_eq_false_iff_not]
      omega
    · intro hc
      have hne : ¬ b.count = b.capacidad := by omega
      have hlt : b.fondo.toNat < b.buffer.length := by omega
      have hm : cmod (b.fondo + 1) b.capacidad = (b.fondo + 1) % b.capacidad := by
        unfold cmod
        exact Int.tmod_eq_emod (by omega) (by omega)
      refine ⟨hlt, hr.1, hr.2.2.1 hne, ?_, ?_, ?_⟩
      · simp only [Buffer.insertar, if_neg hne, hm]
      · simp only [Buffer.insertar, if_neg hne]
        exact List.getElem?_set_self hlt
      · exact contenido_insertar x ⟨h1, h2, h3, h4, h5, h6, h7, h8, h9, h10⟩ hc

theorem insertar_outcome_witness :
    Buffer.Inv ⟨2, ["a", ""], 0, 1, 1⟩ ∧
    Buffer.insertar ⟨2, ["a", ""], 0, 1, 1⟩ "b" = ((), ⟨2, ["a", "b"], 0, 0, 2⟩) ∧
    Buffer.contenido (Buffer.insertar ⟨2, ["a", ""], 0, 1, 1⟩ "b").2 =
      Buffer.contenido ⟨2, ["a", ""], 0, 1, 1⟩ ++ ["b"] :=
  ⟨by decide, by decide,
    (((insertar_outcome ⟨2, ["a", ""], 0, 1, 1⟩ "b").2.2 (by decide)).2.2
      (by decide)).2.2.2.2.2⟩

/-- C5 fails on the code.  `main` run with `2 1 1 1 1` starts two producers
of one item each on a buffer of capacity 1.  In the schedule where both call
`esta_lleno()` (both see `false`) before either calls `insertar`, the second
`insertar` meets a full buffer and stores nothing, yet the producer logs the
item as `Insertó exitosamente` and leaves the retry loop: two items are
recorded as inserted and finished with, one was stored. -/
theorem productor_drops_item :
    (match main [2, 1, 1, 1, 1] with
      | Salida.unidades s0 =>
          s0.correr [Evento.productor 0, Evento.productor 1,
                     Evento.productor 0, Evento.productor 1]
      | _ => none).map
        (fun (s : Sistema) => (s.registrados, s.almacenados, s.buffer.contenido,
                   s.productores.map (fun (p : Productor) => decide (p.i ≤ p.num_producciones)))) =
      some (["1_1", "2_1"], ["1_1"], ["1_1"], [false, false]) := by
  decide

/-- C6, as stated, fails at `cap = 0`: `Buffer(0)` is constructed, with
`capacidad == 0` and no slot, and `main` run with `1 1 0 1 1` starts its
units on that buffer. -/
theorem ctor_zero_builds :
    Buffer.ctor 0 = some ⟨0, [], 0, 0, 0⟩ ∧
    main [1, 1, 0, 1, 1] =
      Salida.unidades (Principal.inicializar ⟨1, 1, 0, 1, 1, ⟨0, [], 0, 0, 0⟩⟩) := by
  decide

/-- C6, amended.  For every `int` `cap < 0`, constructing `Buffer(cap)` fails
(the `resize` of the vector throws) and `main` never starts units with such a
`BC`.  For `cap = 0` the construction succeeds: the buffer has
`capacidad == 0` and no slot, `esta_lleno()` answers `true` on it, and `main`
starts the units on it whenever its supply check passes. -/
theorem ctor_nonpositive (cap : Int) (hmin : INT_MIN ≤ cap) (hle : cap ≤ 0) :
    (cap < 0 →
      Buffer.ctor cap = none ∧
      ∀ (np nc npp ncc : Int) (s : Sistema), main [np, nc, cap, npp, ncc] ≠ Salida.unidades s) ∧
    (cap = 0 →
      Buffer.ctor cap = some ⟨0, [], 0, 0, 0⟩ ∧
      Buffer.esta_lleno ⟨0, [], 0, 0, 0⟩ = true ∧
      ∀ np nc npp ncc : Int, ¬ wrap32 (np * npp) < wrap32 (nc * ncc) →
        main [np, nc, cap, npp, ncc] =
          Salida.unidades (Principal.inicializar ⟨np, nc, 0, npp, ncc, ⟨0, [], 0, 0, 0⟩⟩)) := by
  constructor
  · intro hneg
    have hnone : Buffer.ctor cap = none := by
      unfold INT_MIN at hmin
      have l : toSizeT cap > vectorMaxSize := by
        unfold toSizeT vectorMaxSize
        omega
      simp [Buffer.ctor, resize, l]
    refine ⟨hnone, ?_⟩
    intro np nc npp ncc s
    simp only [main, Principal.ctor, hnone]
    split_ifs <;> simp
  · intro h0
    subst h0
    have hz : Buffer.ctor 0 = some ⟨0, [], 0, 0, 0⟩ := by decide
    refine ⟨hz, by decide, ?_⟩
    intro np nc npp ncc hs
    simp only [main, Principal.ctor, hz, if_neg hs]

theorem ctor_nonpositive_witness :
    Buffer.ctor (-3) = none ∧
    ∀ (np nc npp ncc : Int) (s : Sistema), main [np, nc, -3, npp, ncc] ≠ Salida.unidades s :=
  (ctor_nonpositive (-3) (by decide) (by decide)).1 (by decide)

/-- C7 (extract contract).  For every `Buffer` state satisfying the buffer
invariant, `extraer()` does not return (and changes nothing) exactly when
`count == 0`; when `count > 0` it returns the item stored at slot `frente`,
sets `frente` to `(frente + 1) mod capacidad`, decrements `count` by one and
leaves `fondo`, `capacidad` and every slot as they were. -/
theorem extraer_contract (b : Buffer) (h : b.Inv) :
    (b.extraer = none ↔ b.count = 0) ∧
    (0 < b.count →
      ∃ (d : String) (b1 : Buffer),
        b.extraer = some (d, b1) ∧
        b.buffer[b.frente.toNat]? = some d ∧
        b1.frente = (b.frente + 1) % b.capacidad ∧
        b1.count = b.count - 1 ∧
        b1.fondo = b.fondo ∧ b1.capacidad = b.capacidad ∧ b1.buffer = b.buffer) := by
  obtain ⟨h1, h2, h3, h4, h5, h6, h7, h8, h9, h10⟩ := h
  constructor
  · constructor
    · intro hn
      by_contra hc
      have hpos : 0 < b.count := by omega
      rw [extraer_eq hpos] at hn
      cases hn
    · intro hz
      exact extraer_none (by omega)
  · intro hpos
    have hlt : b.frente.toNat < b.buffer.length := by omega
    refine ⟨b.buffer.getD b.frente.toNat "", _, extraer_eq hpos, ?_, ?_, rfl, rfl, rfl, rfl⟩
    · simp [List.getD_eq_getElem?_getD, List.getElem?_eq_getElem hlt]
    · simp only [cmod]
      exact Int.tmod_eq_emod (by omega) (by omega)

theorem extraer_contract_witness :
    Buffer.Inv ⟨2, ["c", "b"], 1, 1, 2⟩ ∧
    ∃ (d : String) (b1 : Buffer),
      Buffer.extraer ⟨2, ["c", "b"], 1, 1, 2⟩ = some (d, b1) ∧
      (["c", "b"] : List String)[(1 : Int).toNat]? = some d ∧
      b1.frente = (1 + 1) % 2 ∧ b1.count = 2 - 1 ∧
      b1.fondo = 1 ∧ b1.capacidad = 2 ∧ b1.buffer = ["c", "b"] :=
  ⟨by decide, (extraer_contract ⟨2, ["c", "b"], 1, 1, 2⟩ (by decide)).2 (by decide)⟩

/-- C8 (concrete scenario).  On `Buffer(2)`: `insertar("a")` stores
(`count = 1`); `insertar("b")` stores (`count = 2`); `insertar("c")` is
rejected and `count` stays 2; `extraer()` returns `"a"` and `count = 1`;
`insertar("c")` now stores (`count = 2`); `extraer()` returns `"b"`;
`extraer()` returns `"c"`; the buffer is then empty (`count = 0`) and
`esta_lleno()` is false. -/
theorem concrete_scenario :
    Buffer.ctor 2 = some ⟨2, ["", ""], 0, 0, 0⟩ ∧
    Buffer.insertar ⟨2, ["", ""], 0, 0, 0⟩ "a" = ((), ⟨2, ["a", ""], 0, 1, 1⟩) ∧
    Buffer.insertar ⟨2, ["a", ""], 0, 1, 1⟩ "b" = ((), ⟨2, ["a", "b"], 0, 0, 2⟩) ∧
    Buffer.insertar ⟨2, ["a", "b"], 0, 0, 2⟩ "c" = ((), ⟨2, ["a", "b"], 0, 0, 2⟩) ∧
    Buffer.extraer ⟨2, ["a", "b"], 0, 0, 2⟩ = some ("a", ⟨2, ["a", "b"], 1, 0, 1⟩) ∧
    Buffer.insertar ⟨2, ["a", "b"], 1, 0, 1⟩ "c" = ((), ⟨2, ["c", "b"], 1, 1, 2⟩) ∧
    Buffer.extraer ⟨2, ["c", "b"], 1, 1, 2⟩ = some ("b", ⟨2, ["c", "b"], 0, 1, 1⟩) ∧
    Buffer.extraer ⟨2, ["c", "b"], 0, 1, 1⟩ = some ("c", ⟨2, ["c", "b"], 1, 1, 0⟩) ∧
    Buffer.contenido ⟨2, ["c", "b"], 1, 1, 0⟩ = [] ∧
    Buffer.esta_lleno ⟨2, ["c", "b"], 1, 1, 0⟩ = false ∧
    (Traza.inicial ⟨2, ["", ""], 0, 0, 0⟩).correr
        [Op.insertar "a", Op.insertar "b", Op.insertar "c", Op.extraer,
         Op.insertar "c", Op.extraer, Op.extraer, Op.esta_lleno] =
      some ⟨⟨2, ["c", "b"], 1, 1, 0⟩, ["a", "b", "c"], ["a", "b", "c"]⟩ := by
  decide

/-- C9 (circular-index invariant).  For every `Buffer` constructed with
capacity `cap > 0` and every state reached by a finite sequence of calls
(`extraer` when `count > 0`): the vector has exactly `capacidad` slots,
`0 <= frente < capacidad`, `0 <= fondo < capacidad`, so that `buffer[frente]`
and `buffer[fondo]` are in bounds, `count == (fondo - frente) mod capacidad`
whenever `count < capacidad`, and `fondo == frente` whenever
`count == capacidad`. -/
theorem circular_index_invariant (cap : Int) (b0 : Buffer) (ops pre : List Op) (t : Traza)
    (hcap : 0 < cap) (hmax : cap ≤ INT_MAX) (hb : Buffer.ctor cap = some b0)
    (hrun : (Traza.inicial b0).correr ops = some t) (hpre : pre <+: ops) :
    ∃ t1, (Traza.inicial b0).correr pre = some t1 ∧
      t1.buf.capacidad = cap ∧
      (t1.buf.buffer.length : Int) = t1.buf.capacidad ∧
      0 ≤ t1.buf.frente ∧ t1.buf.frente < t1.buf.capacidad ∧
      0 ≤ t1.buf.fondo ∧ t1.buf.fondo < t1.buf.capacidad ∧
      t1.buf.frente.toNat < t1.buf.buffer.length ∧
      t1.buf.fondo.toNat < t1.buf.buffer.length ∧
      (t1.buf.count < t1.buf.capacidad →
        t1.buf.count = (t1.buf.fondo - t1.buf.frente) % t1.buf.capacidad) ∧
      (t1.buf.count = t1.buf.capacidad → t1.buf.fondo = t1.buf.frente) := by
  obtain ⟨t1, hr1, ⟨hi, -⟩, hc⟩ := bien_prefijo hcap hmax hb hrun hpre
  obtain ⟨h1, h2, h3, h4, h5, h6, h7, h8, h9, h10⟩ := hi
  refine ⟨t1, hr1, hc, h3, h4, h5, h6, h7, by omega, by omega, ?_, ?_⟩
  · intro hlt
    rcases h10 with e | e
    · rw [Int.emod_eq_of_lt (by omega) (by omega)]
      exact e
    · rw [← Int.add_emod_self, Int.emod_eq_of_lt (by omega) (by omega)]
      exact e
  · intro hfull
    omega

theorem circular_index_invariant_witness :
    ∃ t1, (Traza.inicial ⟨3, ["", "", ""], 0, 0, 0⟩).correr
        [Op.insertar "a", Op.insertar "b", Op.extraer, Op.insertar "c", Op.insertar "d"] =
        some t1 ∧
      t1.buf.capacidad = 3 ∧
      (t1.buf.buffer.length : Int) = t1.buf.capacidad ∧
      0 ≤ t1.buf.frente ∧ t1.buf.frente < t1.buf.capacidad ∧
      0 ≤ t1.buf.fondo ∧ t1.buf.fondo < t1.buf.capacidad ∧
      t1.buf.frente.toNat < t1.buf.buffer.length ∧
      t1.buf.fondo.toNat < t1.buf.buffer.length ∧
      (t1.buf.count < t1.buf.capacidad →
        t1.buf.count = (t1.buf.fondo - t1.buf.frente) % t1.buf.capacidad) ∧
      (t1.buf.count = t1.buf.capacidad → t1.buf.fondo = t1.buf.frente) :=
  circular_index_invariant 3 ⟨3, ["", "", ""], 0, 0, 0⟩
    [Op.insertar "a", Op.insertar "b", Op.extraer, Op.insertar "c", Op.insertar "d", Op.extraer]
    [Op.insertar "a", Op.insertar "b", Op.extraer, Op.insertar "c", Op.insertar "d"]
    ⟨⟨3, ["d", "b", "c"], 2, 1, 2⟩, ["a", "b", "c", "d"], ["a", "b"]⟩
    (by decide) (by decide) (by decide) (by decide) (by decide)

/-- C10 fails on the code: the supply check multiplies in `int`.  Run with
`1 2 1 1 2147483647`, production is 1 and consumption is 4294967294, but the
second product wraps to -2, the check passes and the units are started.  Run
with `2 1 1 2147483647 1`, production exceeds consumption, the first product
wraps to -2 and `main` exits with status 1. -/
theorem supply_check_overflows :
    main [1, 2, 1, 1, 2147483647] =
      Salida.unidades (Principal.inicializar ⟨1, 2, 1, 1, 2147483647, ⟨1, [""], 0, 0, 0⟩⟩) ∧
    (1 : Int) * 1 < 2 * 2147483647 ∧
    main [2, 1, 1, 2147483647, 1] = Salida.exit1 ∧
    (1 : Int) * 1 ≤ 2 * 2147483647 := by
  decide

end Proyecto1
